import Mathlib

/-!
Shallow embedding of `context_restore.py`, a CLI tool that reconstructs a
human-readable summary of a project's stored context documentation
(`AGENTS.md`, `README.md`, `.serena/memories/`).

The filesystem state visible to the program is modelled by `FS`: the entry (if
any) at `<root>/AGENTS.md`, at `<root>/README.md`, and at
`<root>/.serena/memories`, where a directory entry carries its children in
filesystem enumeration order.  Reading a file yields `Except String String`
(`.error` models an `OSError`/`UnicodeDecodeError` raised by `open`/`read`);
`json.load` on the metadata file is modelled by the oracle field `parsed`.
Each `print` call of the script is mirrored by one constructor of `Line`, so a
run produces the list of printed lines plus an `Outcome` (a `sys.exit` code or
an uncaught exception).
-/

namespace ContextRestore

/-- JSON values as produced by `json.load`. -/
inductive JValue where
  | null
  | bool (b : Bool)
  | num (n : Int)
  | str (s : String)
  | arr (elems : List JValue)
  | obj (fields : List (String × JValue))

/-- Python truthiness of a deserialised JSON value (`if metadata:`). -/
def JValue.truthy : JValue → Bool
  | .null => false
  | .bool b => b
  | .num n => n != 0
  | .str s => s != ""
  | .arr xs => !xs.isEmpty
  | .obj fs => !fs.isEmpty

/-- Whether the value deserialised to a Python `dict` (a JSON object). -/
def JValue.isObj : JValue → Bool
  | .obj _ => true
  | _ => false

/-- Python type name of the deserialised value, as it appears in an
`AttributeError` message. -/
def JValue.pyTypeName : JValue → String
  | .null => "NoneType"
  | .bool _ => "bool"
  | .num _ => "int"
  | .str _ => "str"
  | .arr _ => "list"
  | .obj _ => "dict"

/-- A single-quote character, written without an apostrophe literal. -/
def squote : String := String.singleton (Char.ofNat 39)

mutual

/-- Python `repr` of a deserialised JSON value (used for values nested inside
containers when the container is interpolated into an f-string). -/
def pyRepr : JValue → String
  | .null => "None"
  | .bool true => "True"
  | .bool false => "False"
  | .num n => toString n
  | .str s => squote ++ s ++ squote
  | .arr xs => "[" ++ pyReprList xs ++ "]"
  | .obj fs => "\x7b" ++ pyReprFields fs ++ "\x7d"

/-- Comma-separated `repr`s of list elements. -/
def pyReprList : List JValue → String
  | [] => ""
  | [x] => pyRepr x
  | x :: y :: xs => pyRepr x ++ ", " ++ pyReprList (y :: xs)

/-- Comma-separated `repr`s of dict items. -/
def pyReprFields : List (String × JValue) → String
  | [] => ""
  | [p] => squote ++ p.1 ++ squote ++ ": " ++ pyRepr p.2
  | p :: q :: fs => squote ++ p.1 ++ squote ++ ": " ++ pyRepr p.2 ++ ", " ++ pyReprFields (q :: fs)

end

/-- Python `str` of a deserialised JSON value, as interpolated by an f-string. -/
def pyStr : JValue → String
  | .str s => s
  | v => pyRepr v

/-- Data of a regular file: its `stat` size, the result of opening and reading
it as text (`.error` = uncaught-able OS or decode failure detail), and, for the
metadata file, the outcome of `open` + `json.load` on it (oracle for the
`json` library). -/
structure FileData where
  size : Nat
  content : Except String String
  parsed : Except String JValue

/-- A filesystem entry: a regular file, or a directory with its `stat` size and
its children in filesystem enumeration order. -/
inductive FSEntry where
  | file (d : FileData)
  | dir (size : Nat) (children : List (String × FSEntry))

/-- Python `Path.is_file()`. -/
def FSEntry.isFile : FSEntry → Bool
  | .file _ => true
  | .dir _ _ => false

/-- Python `Path.stat().st_size`. -/
def FSEntry.statSize : FSEntry → Nat
  | .file d => d.size
  | .dir sz _ => sz

/-- Result of `open(path).read()`: opening a directory raises
`IsADirectoryError`; a file read yields its `content` field. -/
def readFile : FSEntry → Except String String
  | .file d => d.content
  | .dir _ _ => .error "IsADirectoryError"

/-- The filesystem state the script can observe: the entry (if present) at
`AGENTS.md`, `README.md` and `.serena/memories` under the working directory
`root`. -/
structure FS where
  agents : Option FSEntry
  readme : Option FSEntry
  memories : Option FSEntry
  root : String

/-- Path of a child of the project root, as printed by the script. -/
def childPath (root name : String) : String := root ++ "/" ++ name

/-- One printed line per `print` call of the script, carrying its dynamic
payload.  `bannerNL` is `print("\n" + "="*70)`, `bannerPlain` is
`print("="*70)`, `bannerTrail` is `print("="*70 + "\n")`. -/
inductive Line where
  | searching (root : String)
  | errNotFound
  | hintHeader
  | hintCmd (cmd : String)
  | warnMetadata (detail : String)
  | bannerNL
  | bannerPlain
  | bannerTrail
  | summaryTitle
  | contextSaved (v : String)
  | projectRootLine (v : String)
  | readmeInfo (path : String)
  | sizeLine (n : Nat)
  | mainDocInfo (path : String)
  | contextDirLine (path : String)
  | refCountLine (n : Nat)
  | availableRefs
  | refEntry (name : String) (size : Nat)
  | noContextDir
  | readmeHdr
  | agentsHdr
  | refHdr (name : String)
  | contentLine (s : String)
  | completeA
  | completeB
deriving DecidableEq

/-- Process outcome: a `sys.exit` code, or an uncaught exception. -/
inductive Outcome where
  | exit (code : Nat)
  | exn (msg : String)
deriving DecidableEq

/-- `find_agents_md`: returns the `AGENTS.md` path if `Path.exists()` holds
there (any entry — file or directory), else `None`. -/
def find_agents_md (fs : FS) : Option String :=
  match fs.agents with
  | some _ => some (childPath fs.root "AGENTS.md")
  | none => none

/-- `find_readme`: returns the `README.md` path if `Path.exists()` holds there
(any entry — file or directory), else `None`. -/
def find_readme (fs : FS) : Option String :=
  match fs.readme with
  | some _ => some (childPath fs.root "README.md")
  | none => none

/-- `find_context_directory`: returns the `.serena/memories` path if it exists
and is a directory. -/
def find_context_directory (fs : FS) : Option String :=
  match fs.memories with
  | some (.dir _ _) => some (childPath fs.root ".serena/memories")
  | _ => none

/-- Children of `.serena/memories` when it exists and is a directory
(the data behind `find_context_directory`). -/
def contextChildren (fs : FS) : Option (List (String × FSEntry)) :=
  match fs.memories with
  | some (.dir _ ch) => some ch
  | _ => none

/-- `load_metadata`: returns the parsed metadata (if any) together with the
warning lines it prints.  Absence of `metadata.json` is silent; an I/O or
parse failure is caught, warned about, and turned into `None`. -/
def load_metadata (ch : List (String × FSEntry)) : Option JValue × List Line :=
  match ch.lookup "metadata.json" with
  | none => (none, [])
  | some (.dir _ _) => (none, [Line.warnMetadata "IsADirectoryError"])
  | some (.file d) =>
    match d.parsed with
    | .ok v => (some v, [])
    | .error e => (none, [Line.warnMetadata e])

/-- Filter of `list_context_files`: regular files whose name is neither
`.gitkeep` nor `metadata.json`. -/
def keepEntry (p : String × FSEntry) : Bool :=
  p.2.isFile && p.1 != ".gitkeep" && p.1 != "metadata.json"

/-- Comparison used by `sorted(files)`: paths of direct children of one
directory compare by name. -/
def entryLE (a b : String × FSEntry) : Prop := a.1 ≤ b.1

instance : DecidableRel entryLE := fun a b => inferInstanceAs (Decidable (a.1 ≤ b.1))

instance : IsTotal (String × FSEntry) entryLE := ⟨fun a b => le_total a.1 b.1⟩

instance : IsTrans (String × FSEntry) entryLE := ⟨fun _ _ _ h h2 => le_trans h h2⟩

/-- `list_context_files`: the children that pass `keepEntry`, sorted by name.
Python's `sorted` is a stable sort by path order; `insertionSort` is likewise
a stable sort, so the two agree on every input list. -/
def list_context_files (ch : List (String × FSEntry)) : List (String × FSEntry) :=
  (ch.filter keepEntry).insertionSort entryLE

/-- `read_agents_md`: read the contents of `AGENTS.md` (errors propagate). -/
def read_agents_md (e : FSEntry) : Except String String := readFile e

/-- Message of the `AttributeError` raised by `metadata.get` when `metadata`
deserialised to a non-`dict` value. -/
def attrErrMsg (v : JValue) : String :=
  "AttributeError: " ++ squote ++ v.pyTypeName ++ squote ++ " object has no attribute " ++ squote ++ "get" ++ squote

/-- Rendering of `metadata.get(key, 'Unknown')` inside an f-string. -/
def renderField (fields : List (String × JValue)) (key : String) : String :=
  match fields.lookup key with
  | some v => pyStr v
  | none => "Unknown"

/-- Banner, title, banner: the first three prints of the summary. -/
def summaryHead : List Line := [Line.bannerNL, Line.summaryTitle, Line.bannerPlain]

/-- Readme lines of the summary (path and byte size, when present). -/
def summaryReadmePart (root : String) (readme : Option FSEntry) : List Line :=
  match readme with
  | some re => [Line.readmeInfo (childPath root "README.md"), Line.sizeLine re.statSize]
  | none => []

/-- Main-document lines of the summary (path and byte size, unconditional). -/
def summaryAgentsPart (root : String) (ag : FSEntry) : List Line :=
  [Line.mainDocInfo (childPath root "AGENTS.md"), Line.sizeLine ag.statSize]

/-- Context-directory lines of the summary: path and reference count plus the
per-file listing when non-empty, or the `no directory found` line. -/
def summaryCdirPart (root : String) (cdir : Option (List (String × FSEntry))) :
    List Line :=
  match cdir with
  | some ch =>
    let cf := list_context_files ch
    [Line.contextDirLine (childPath root ".serena/memories"), Line.refCountLine cf.length] ++
      (if cf.isEmpty then []
       else Line.availableRefs :: cf.map (fun p => Line.refEntry p.1 p.2.statSize))
  | none => [Line.noContextDir]

/-- `display_context_summary`: the summary lines it prints, plus `some msg`
when it aborts with an uncaught exception (the `AttributeError` of
`metadata.get` on a truthy non-dict value). -/
def display_context_summary (root : String) (ag : FSEntry) (readme : Option FSEntry)
    (cdir : Option (List (String × FSEntry))) (metadata : Option JValue) :
    List Line × Option String :=
  let rest := summaryReadmePart root readme ++ summaryAgentsPart root ag ++
    summaryCdirPart root cdir ++ [Line.bannerNL]
  match metadata with
  | some v =>
    if v.truthy then
      match v with
      | .obj fields =>
        (summaryHead ++ [Line.contextSaved (renderField fields "created_at"),
                  Line.projectRootLine (renderField fields "project_root")] ++ rest, none)
      | _ => (summaryHead, some (attrErrMsg v))
    else (summaryHead ++ rest, none)
  | none => (summaryHead ++ rest, none)

/-- Dump loop over the (already sorted) reference files: lines printed, plus
`some msg` when a read fails (the header of the failing file is already
printed; everything after is skipped). -/
def dumpRefs : List (String × FSEntry) → List Line × Option String
  | [] => ([], none)
  | (n, e) :: rest =>
    let hdr := [Line.bannerNL, Line.refHdr n, Line.bannerTrail]
    match readFile e with
    | .error m => (hdr, some m)
    | .ok s =>
      let r := dumpRefs rest
      (hdr ++ [Line.contentLine s, Line.bannerNL] ++ r.1, r.2)

/-- Content-dumping phase of `main`: readme (if present), then `AGENTS.md`,
then each reference file; `some msg` aborts the remainder. -/
def dumpPhase (readme : Option FSEntry) (ag : FSEntry)
    (cdir : Option (List (String × FSEntry))) : List Line × Option String :=
  let r1 : List Line × Option String :=
    match readme with
    | none => ([], none)
    | some re =>
      let hdr := [Line.bannerNL, Line.readmeHdr, Line.bannerTrail]
      match readFile re with
      | .error m => (hdr, some m)
      | .ok s => (hdr ++ [Line.contentLine s, Line.bannerNL], none)
  match r1.2 with
  | some m => (r1.1, some m)
  | none =>
    let hdr := [Line.bannerNL, Line.agentsHdr, Line.bannerTrail]
    match read_agents_md ag with
    | .error m => (r1.1 ++ hdr, some m)
    | .ok s =>
      let acc := r1.1 ++ hdr ++ [Line.contentLine s, Line.bannerNL]
      match cdir with
      | none => (acc, none)
      | some ch =>
        let r3 := dumpRefs (list_context_files ch)
        (acc ++ r3.1, r3.2)

/-- Metadata step of `main`: `load_metadata` is called only when the context
directory was found. -/
def loadedMeta (fs : FS) : Option JValue × List Line :=
  match contextChildren fs with
  | some ch => load_metadata ch
  | none => (none, [])

/-- `main`: the full run over a filesystem state — every printed line in
order, and the process outcome. -/
def main (fs : FS) : List Line × Outcome :=
  let out0 := [Line.searching fs.root]
  match fs.agents with
  | none =>
    (out0 ++ [Line.errNotFound, Line.hintHeader, Line.hintCmd "  python context_save.py"],
     .exit 1)
  | some ag =>
    let lm := loadedMeta fs
    let sum := display_context_summary fs.root ag fs.readme (contextChildren fs) lm.1
    let acc := out0 ++ lm.2 ++ sum.1
    match sum.2 with
    | some m => (acc, .exn m)
    | none =>
      let d := dumpPhase fs.readme ag (contextChildren fs)
      match d.2 with
      | some m => (acc ++ d.1, .exn m)
      | none => (acc ++ d.1 ++ [Line.completeA, Line.completeB], .exit 0)

/-- Content-dump events: the labelled headers and the full-content prints,
in output order.  Projecting a run's lines onto these events captures which
documents were dumped, with what content, and in what order. -/
inductive DumpEvt where
  | hdrR
  | hdrA
  | hdrRef (name : String)
  | body (s : String)
deriving DecidableEq

/-- Projection of one printed line onto its dump event, if it is one. -/
def dumpEvt : Line → Option DumpEvt
  | .readmeHdr => some .hdrR
  | .agentsHdr => some .hdrA
  | .refHdr n => some (.hdrRef n)
  | .contentLine s => some (.body s)
  | _ => none

/-- Dump events of a list of printed lines, in order. -/
def dumpSeq (ls : List Line) : List DumpEvt := ls.filterMap dumpEvt

/-- Content of a file whose read is known to succeed. -/
def readFileD (e : FSEntry) : String := (readFile e).toOption.getD ""

/-- Metadata values on which `display_context_summary` does not raise: absent,
falsy, or an actual JSON object. -/
def metaSafe : Option JValue → Prop
  | none => True
  | some v => v.truthy = false ∨ ∃ fields, v = .obj fields

/-- Strict name order on directory entries. -/
def entryLT (a b : String × FSEntry) : Prop := a.1 < b.1

instance : IsAntisymm (String × FSEntry) entryLT :=
  ⟨fun _ _ h h2 => absurd h2 (lt_asymm h)⟩

@[simp] theorem dumpSeq_nil : dumpSeq [] = [] := rfl

@[simp] theorem dumpSeq_append (a b : List Line) :
    dumpSeq (a ++ b) = dumpSeq a ++ dumpSeq b :=
  List.filterMap_append a b dumpEvt

theorem lookup_eq_of_perm (k : String) {l₁ l₂ : List (String × FSEntry)}
    (hp : l₁.Perm l₂) (hn : (l₁.map Prod.fst).Nodup) :
    l₁.lookup k = l₂.lookup k := by
  induction hp with
  | nil => rfl
  | cons x h ih =>
    obtain ⟨k₁, v₁⟩ := x
    simp only [List.map_cons, List.nodup_cons] at hn
    cases hk : k == k₁ with
    | true => simp [List.lookup, hk]
    | false => simpa [List.lookup, hk] using ih hn.2
  | swap x y l =>
    obtain ⟨k₂, v₂⟩ := x
    obtain ⟨k₁, v₁⟩ := y
    simp only [List.map_cons, List.nodup_cons] at hn
    have hne : k₁ ≠ k₂ := fun h => hn.1 (h ▸ List.mem_cons_self k₂ _)
    cases hk₁ : k == k₁ <;> cases hk₂ : k == k₂ <;>
      simp only [List.lookup, hk₁, hk₂]
    exact absurd (beq_iff_eq.mp hk₁ ▸ beq_iff_eq.mp hk₂ ▸ rfl) hne
  | trans p₁ p₂ ih₁ ih₂ =>
    have hn₂ := ((p₁.map Prod.fst).nodup_iff).mp hn
    exact (ih₁ hn).trans (ih₂ hn₂)

theorem load_metadata_eq_of_perm {l₁ l₂ : List (String × FSEntry)}
    (hp : l₁.Perm l₂) (hn : (l₁.map Prod.fst).Nodup) :
    load_metadata l₁ = load_metadata l₂ := by
  unfold load_metadata
  rw [lookup_eq_of_perm "metadata.json" hp hn]

theorem sorted_list_context_files (l : List (String × FSEntry)) :
    List.Sorted entryLE (list_context_files l) :=
  List.sorted_insertionSort entryLE (l.filter keepEntry)

theorem perm_list_context_files (l : List (String × FSEntry)) :
    (list_context_files l).Perm (l.filter keepEntry) :=
  List.perm_insertionSort entryLE (l.filter keepEntry)

theorem strictSorted_list_context_files (l : List (String × FSEntry))
    (hn : (l.map Prod.fst).Nodup) :
    List.Pairwise entryLT (list_context_files l) := by
  have hsub : List.Sublist ((l.filter keepEntry).map Prod.fst) (l.map Prod.fst) :=
    (List.filter_sublist l).map Prod.fst
  have hnf : ((l.filter keepEntry).map Prod.fst).Nodup := hn.sublist hsub
  have hns : ((list_context_files l).map Prod.fst).Nodup :=
    (((perm_list_context_files l).map Prod.fst).nodup_iff).mpr hnf
  have hne : List.Pairwise (fun a b : String × FSEntry => a.1 ≠ b.1)
      (list_context_files l) := (List.pairwise_map).mp hns
  have hle : List.Pairwise entryLE (list_context_files l) :=
    sorted_list_context_files l
  exact (hle.and hne).imp fun h => lt_of_le_of_ne h.1 h.2

theorem list_context_files_eq_of_perm {l₁ l₂ : List (String × FSEntry)}
    (hp : l₁.Perm l₂) (hn : (l₁.map Prod.fst).Nodup) :
    list_context_files l₁ = list_context_files l₂ := by
  have hn₂ : (l₂.map Prod.fst).Nodup := ((hp.map Prod.fst).nodup_iff).mp hn
  have hperm : (list_context_files l₁).Perm (list_context_files l₂) :=
    ((perm_list_context_files l₁).trans (hp.filter keepEntry)).trans
      (perm_list_context_files l₂).symm
  exact List.eq_of_perm_of_sorted hperm
    (strictSorted_list_context_files l₁ hn)
    (strictSorted_list_context_files l₂ hn₂)

theorem mem_list_context_files (l : List (String × FSEntry)) (p : String × FSEntry) :
    p ∈ list_context_files l ↔
      p ∈ l ∧ p.2.isFile = true ∧ p.1 ≠ ".gitkeep" ∧ p.1 ≠ "metadata.json" := by
  rw [(perm_list_context_files l).mem_iff, List.mem_filter]
  simp [keepEntry, and_assoc]

theorem dumpRefs_all_ok (cf : List (String × FSEntry))
    (h : ∀ p ∈ cf, ∃ s, readFile p.2 = .ok s) :
    dumpRefs cf =
      (cf.flatMap (fun p =>
        [Line.bannerNL, Line.refHdr p.1, Line.bannerTrail,
         Line.contentLine (readFileD p.2), Line.bannerNL]), none) := by
  induction cf with
  | nil => rfl
  | cons p rest ih =>
    obtain ⟨s, hs⟩ := h p (List.mem_cons_self p rest)
    have hrest := ih fun q hq => h q (List.mem_cons_of_mem p hq)
    obtain ⟨n, e⟩ := p
    simp only [dumpRefs, hs, hrest, List.flatMap_cons]
    simp [readFileD, hs, Except.toOption]

theorem dumpRefs_fail (cf₁ cf₂ : List (String × FSEntry)) (p : String × FSEntry)
    (h₁ : ∀ q ∈ cf₁, ∃ s, readFile q.2 = .ok s) (e : String)
    (hp : readFile p.2 = .error e) :
    dumpRefs (cf₁ ++ p :: cf₂) =
      (cf₁.flatMap (fun q =>
        [Line.bannerNL, Line.refHdr q.1, Line.bannerTrail,
         Line.contentLine (readFileD q.2), Line.bannerNL]) ++
       [Line.bannerNL, Line.refHdr p.1, Line.bannerTrail], some e) := by
  induction cf₁ with
  | nil =>
    obtain ⟨n, pe⟩ := p
    simp only [List.nil_append, dumpRefs, List.flatMap_nil]
    simp [hp]
  | cons q rest ih =>
    obtain ⟨s, hs⟩ := h₁ q (List.mem_cons_self q rest)
    have hrest := ih fun r hr => h₁ r (List.mem_cons_of_mem q hr)
    obtain ⟨n, qe⟩ := q
    simp only [List.cons_append, dumpRefs, hs, hrest, List.flatMap_cons]
    simp [readFileD, hs, hrest, Except.toOption]

theorem dumpSeq_refFlat (cf : List (String × FSEntry)) :
    dumpSeq (cf.flatMap (fun p =>
        [Line.bannerNL, Line.refHdr p.1, Line.bannerTrail,
         Line.contentLine (readFileD p.2), Line.bannerNL])) =
      cf.flatMap (fun p => [DumpEvt.hdrRef p.1, DumpEvt.body (readFileD p.2)]) := by
  induction cf with
  | nil => rfl
  | cons p rest ih =>
    simp only [List.flatMap_cons, dumpSeq_append, ih]
    simp [dumpSeq, dumpEvt]

theorem dumpSeq_dumpRefs_all_ok (cf : List (String × FSEntry))
    (h : ∀ p ∈ cf, ∃ s, readFile p.2 = .ok s) :
    dumpSeq (dumpRefs cf).1 =
      cf.flatMap (fun p => [DumpEvt.hdrRef p.1, DumpEvt.body (readFileD p.2)]) := by
  rw [dumpRefs_all_ok cf h]
  exact dumpSeq_refFlat cf

theorem no_contextSaved_dumpRefs (cf : List (String × FSEntry)) (s : String) :
    Line.contextSaved s ∉ (dumpRefs cf).1 ∧
      Line.projectRootLine s ∉ (dumpRefs cf).1 ∧
      Line.completeA ∉ (dumpRefs cf).1 := by
  induction cf with
  | nil => simp [dumpRefs]
  | cons p rest ih =>
    obtain ⟨n, e⟩ := p
    cases hr : readFile e <;> simp [dumpRefs, hr, ih]

theorem refHdr_mem_dumpRefs (cf : List (String × FSEntry)) (name : String)
    (h : Line.refHdr name ∈ (dumpRefs cf).1) : name ∈ cf.map Prod.fst := by
  induction cf with
  | nil => simp [dumpRefs] at h
  | cons p rest ih =>
    obtain ⟨n, e⟩ := p
    cases hr : readFile e <;> simp only [dumpRefs, hr] at h
    · simp only [List.mem_cons] at h
      rcases h with h | h | h <;> simp_all
    · simp only [List.mem_append, List.mem_cons] at h
      rcases h with (h | h | h | h | h) | h <;> simp_all [ih]

theorem display_no_abort (root : String) (ag : FSEntry) (re : Option FSEntry)
    (cdir : Option (List (String × FSEntry))) (md : Option JValue)
    (hmeta : metaSafe md) :
    (display_context_summary root ag re cdir md).2 = none := by
  rcases md with _ | v
  · simp [display_context_summary]
  · rcases hmeta with htr | ⟨fields, rfl⟩
    · simp [display_context_summary, htr]
    · cases htr : JValue.truthy (.obj fields) <;>
        simp [display_context_summary, htr]

theorem dumpSeq_summaryHead : dumpSeq summaryHead = [] := rfl

theorem dumpSeq_summaryReadmePart (root : String) (re : Option FSEntry) :
    dumpSeq (summaryReadmePart root re) = [] := by
  cases re <;> simp [summaryReadmePart, dumpSeq, dumpEvt]

theorem dumpSeq_summaryAgentsPart (root : String) (ag : FSEntry) :
    dumpSeq (summaryAgentsPart root ag) = [] := by
  simp [summaryAgentsPart, dumpSeq, dumpEvt]

theorem dumpSeq_summaryCdirPart (root : String)
    (cdir : Option (List (String × FSEntry))) :
    dumpSeq (summaryCdirPart root cdir) = [] := by
  rcases cdir with _ | ch
  · simp [summaryCdirPart, dumpSeq, dumpEvt]
  · by_cases h : (list_context_files ch).isEmpty <;>
      simp [summaryCdirPart, h, dumpSeq, dumpEvt, List.filterMap_map, Function.comp]

theorem dumpSeq_single_bannerNL : dumpSeq [Line.bannerNL] = [] := rfl

theorem dumpSeq_metaLines (a b : String) :
    dumpSeq [Line.contextSaved a, Line.projectRootLine b] = [] := rfl

theorem dumpSeq_cons_contextSaved (a : String) (ls : List Line) :
    dumpSeq (Line.contextSaved a :: ls) = dumpSeq ls := rfl

theorem dumpSeq_cons_projectRootLine (a : String) (ls : List Line) :
    dumpSeq (Line.projectRootLine a :: ls) = dumpSeq ls := rfl

theorem dumpSeq_display (root : String) (ag : FSEntry) (re : Option FSEntry)
    (cdir : Option (List (String × FSEntry))) (md : Option JValue) :
    dumpSeq (display_context_summary root ag re cdir md).1 = [] := by
  have h1 := dumpSeq_summaryReadmePart root re
  have h2 := dumpSeq_summaryAgentsPart root ag
  have h3 := dumpSeq_summaryCdirPart root cdir
  rcases md with _ | v
  · simp [display_context_summary, dumpSeq_append, h1, h2, h3, dumpSeq_summaryHead,
      dumpSeq_single_bannerNL]
  · cases htr : v.truthy
    · simp [display_context_summary, htr, dumpSeq_append, h1, h2, h3,
        dumpSeq_summaryHead, dumpSeq_single_bannerNL]
    · rcases v with _ | b | n | str | xs | fields <;>
        simp_all [display_context_summary, dumpSeq_append, dumpSeq_summaryHead,
          dumpSeq_single_bannerNL, dumpSeq_metaLines, dumpSeq_cons_contextSaved,
          dumpSeq_cons_projectRootLine]

theorem no_meta_summaryParts (root : String) (ag : FSEntry) (re : Option FSEntry)
    (cdir : Option (List (String × FSEntry))) (s : String) :
    (Line.contextSaved s ∉ summaryHead ∧ Line.projectRootLine s ∉ summaryHead) ∧
    (Line.contextSaved s ∉ summaryReadmePart root re ∧
      Line.projectRootLine s ∉ summaryReadmePart root re) ∧
    (Line.contextSaved s ∉ summaryAgentsPart root ag ∧
      Line.projectRootLine s ∉ summaryAgentsPart root ag) ∧
    (Line.contextSaved s ∉ summaryCdirPart root cdir ∧
      Line.projectRootLine s ∉ summaryCdirPart root cdir) := by
  refine ⟨⟨?_, ?_⟩, ⟨?_, ?_⟩, ⟨?_, ?_⟩, ⟨?_, ?_⟩⟩ <;>
    first
      | simp [summaryHead]
      | (cases re <;> simp [summaryReadmePart])
      | simp [summaryAgentsPart]
      | (rcases cdir with _ | ch
         · simp [summaryCdirPart]
         · by_cases h : (list_context_files ch).isEmpty <;>
             simp [summaryCdirPart, h, List.mem_map])

theorem no_meta_display (root : String) (ag : FSEntry) (re : Option FSEntry)
    (cdir : Option (List (String × FSEntry))) (md : Option JValue)
    (h : md = none ∨ ∃ v, md = some v ∧ v.truthy = false) (s : String) :
    Line.contextSaved s ∉ (display_context_summary root ag re cdir md).1 ∧
      Line.projectRootLine s ∉ (display_context_summary root ag re cdir md).1 := by
  obtain ⟨⟨a1, a2⟩, ⟨b1, b2⟩, ⟨c1, c2⟩, ⟨d1, d2⟩⟩ :=
    no_meta_summaryParts root ag re cdir s
  rcases h with rfl | ⟨v, rfl, htr⟩
  · constructor <;> simp_all [display_context_summary]
  · constructor <;> simp_all [display_context_summary, htr]

/-- Lines of the readme dump, when the readme read succeeds. -/
def readmeDumpLines (re : Option FSEntry) : List Line :=
  match re with
  | none => []
  | some rd => [Line.bannerNL, Line.readmeHdr, Line.bannerTrail,
                Line.contentLine (readFileD rd), Line.bannerNL]

/-- Lines of the reference-file dumps, when every reference read succeeds. -/
def refsDumpLines (cdir : Option (List (String × FSEntry))) : List Line :=
  match cdir with
  | none => []
  | some ch => (list_context_files ch).flatMap (fun p =>
      [Line.bannerNL, Line.refHdr p.1, Line.bannerTrail,
       Line.contentLine (readFileD p.2), Line.bannerNL])

/-- Dump events of the readme dump. -/
def readmeDumpEvts (re : Option FSEntry) : List DumpEvt :=
  match re with
  | none => []
  | some rd => [DumpEvt.hdrR, DumpEvt.body (readFileD rd)]

/-- Dump events of the reference-file dumps, in lister order. -/
def refsDumpEvts (cdir : Option (List (String × FSEntry))) : List DumpEvt :=
  match cdir with
  | none => []
  | some ch => (list_context_files ch).flatMap (fun p =>
      [DumpEvt.hdrRef p.1, DumpEvt.body (readFileD p.2)])

theorem dumpPhase_all_ok (re : Option FSEntry) (ag : FSEntry)
    (cdir : Option (List (String × FSEntry)))
    (hre : re = none ∨ ∃ rd s, re = some rd ∧ readFile rd = .ok s)
    (hag : ∃ s, readFile ag = .ok s)
    (hcd : cdir = none ∨ ∃ ch, cdir = some ch ∧
      ∀ p ∈ list_context_files ch, ∃ s, readFile p.2 = .ok s) :
    dumpPhase re ag cdir =
      (readmeDumpLines re ++
       [Line.bannerNL, Line.agentsHdr, Line.bannerTrail,
        Line.contentLine (readFileD ag), Line.bannerNL] ++
       refsDumpLines cdir,
       none) := by
  obtain ⟨as, has⟩ := hag
  rcases hre with rfl | ⟨rd, rs, rfl, hrs⟩ <;>
    rcases hcd with rfl | ⟨ch, rfl, hch⟩
  · simp [dumpPhase, read_agents_md, has, readFileD, Except.toOption,
      readmeDumpLines, refsDumpLines]
  · simp [dumpPhase, read_agents_md, has, dumpRefs_all_ok _ hch, readFileD,
      Except.toOption, readmeDumpLines, refsDumpLines]
  · simp [dumpPhase, read_agents_md, has, hrs, readFileD, Except.toOption,
      readmeDumpLines, refsDumpLines]
  · simp [dumpPhase, read_agents_md, has, hrs, dumpRefs_all_ok _ hch, readFileD,
      Except.toOption, readmeDumpLines, refsDumpLines]

theorem main_good (fs : FS) (ag : FSEntry)
    (hag : fs.agents = some ag)
    (hmeta : metaSafe (loadedMeta fs).1)
    (hre : fs.readme = none ∨ ∃ rd s, fs.readme = some rd ∧ readFile rd = .ok s)
    (hagr : ∃ s, readFile ag = .ok s)
    (hcd : contextChildren fs = none ∨ ∃ ch, contextChildren fs = some ch ∧
      ∀ p ∈ list_context_files ch, ∃ s, readFile p.2 = .ok s) :
    main fs =
      ([Line.searching fs.root] ++ (loadedMeta fs).2 ++
       (display_context_summary fs.root ag fs.readme (contextChildren fs)
         (loadedMeta fs).1).1 ++
       (dumpPhase fs.readme ag (contextChildren fs)).1 ++
       [Line.completeA, Line.completeB], .exit 0) := by
  have hsum := display_no_abort fs.root ag fs.readme (contextChildren fs)
    (loadedMeta fs).1 hmeta
  have hdp : (dumpPhase fs.readme ag (contextChildren fs)).2 = none := by
    rw [dumpPhase_all_ok fs.readme ag (contextChildren fs) hre hagr hcd]
  simp only [main, hag, hsum, hdp]
  try simp [List.append_assoc]

theorem not_mem_of_dumpSeq_nil (x : Line) (ev : DumpEvt) (hx : dumpEvt x = some ev)
    (ls : List Line) (h : dumpSeq ls = []) : x ∉ ls := by
  intro hm
  have hev : ev ∈ dumpSeq ls := List.mem_filterMap.mpr ⟨x, hm, hx⟩
  simp [h] at hev

theorem loadedMeta_warns (fs : FS) :
    (loadedMeta fs).2 = [] ∨ ∃ e, (loadedMeta fs).2 = [Line.warnMetadata e] := by
  unfold loadedMeta
  rcases h : contextChildren fs with _ | ch
  · simp
  · unfold load_metadata
    rcases hl : ch.lookup "metadata.json" with _ | entry
    · simp [hl]
    · rcases entry with d | ⟨sz, sub⟩
      · cases hp : d.parsed <;> simp [hl, hp]
      · simp [hl]

theorem dumpSeq_loadedMeta (fs : FS) : dumpSeq (loadedMeta fs).2 = [] := by
  rcases loadedMeta_warns fs with h | ⟨e, h⟩ <;> simp [h, dumpSeq, dumpEvt]

theorem completeA_not_summaryParts (root : String) (ag : FSEntry) (re : Option FSEntry)
    (cdir : Option (List (String × FSEntry))) :
    Line.completeA ∉ summaryHead ∧
    Line.completeA ∉ summaryReadmePart root re ∧
    Line.completeA ∉ summaryAgentsPart root ag ∧
    Line.completeA ∉ summaryCdirPart root cdir := by
  refine ⟨?_, ?_, ?_, ?_⟩
  · simp [summaryHead]
  · cases re <;> simp [summaryReadmePart]
  · simp [summaryAgentsPart]
  · rcases cdir with _ | ch
    · simp [summaryCdirPart]
    · by_cases h : (list_context_files ch).isEmpty <;>
        simp [summaryCdirPart, h, List.mem_map]

theorem completeA_not_display (root : String) (ag : FSEntry) (re : Option FSEntry)
    (cdir : Option (List (String × FSEntry))) (md : Option JValue) :
    Line.completeA ∉ (display_context_summary root ag re cdir md).1 := by
  obtain ⟨a, b, c, d⟩ := completeA_not_summaryParts root ag re cdir
  rcases md with _ | v
  · simp_all [display_context_summary]
  · cases htr : v.truthy
    · simp_all [display_context_summary, htr]
    · rcases v with _ | bb | n | str | xs | fields <;>
        simp_all [display_context_summary, htr]

theorem no_meta_dumpPhase (re : Option FSEntry) (ag : FSEntry)
    (cdir : Option (List (String × FSEntry))) (s : String) :
    Line.contextSaved s ∉ (dumpPhase re ag cdir).1 ∧
      Line.projectRootLine s ∉ (dumpPhase re ag cdir).1 := by
  rcases re with _ | rd
  · cases ha : read_agents_md ag
    · simp [dumpPhase, ha]
    · rcases cdir with _ | ch
      · simp [dumpPhase, ha]
      · have h := no_contextSaved_dumpRefs (list_context_files ch) s
        simp [dumpPhase, ha, h.1, h.2.1]
  · cases hr : readFile rd
    · simp [dumpPhase, hr]
    · cases ha : read_agents_md ag
      · simp [dumpPhase, hr, ha]
      · rcases cdir with _ | ch
        · simp [dumpPhase, hr, ha]
        · have h := no_contextSaved_dumpRefs (list_context_files ch) s
          simp [dumpPhase, hr, ha, h.1, h.2.1]

/-! Concrete filesystem fixtures used by witnesses and counterexamples. -/

/-- A readable text file with the given content and size. -/
def plainFile (s : String) (n : Nat) : FileData :=
  { size := n, content := .ok s, parsed := .error "unused" }

/-- A `metadata.json` whose bytes are readable but are not valid JSON. -/
def badMeta : FileData :=
  { size := 1, content := .ok "x",
    parsed := .error "Expecting value: line 1 column 1 (char 0)" }

/-- A `metadata.json` holding the JSON array `[1]` (truthy, not an object). -/
def arrMeta : FileData :=
  { size := 3, content := .ok "[1]", parsed := .ok (.arr [.num 1]) }

/-- A `metadata.json` holding the empty JSON object. -/
def emptyObjMeta : FileData :=
  { size := 2, content := .ok "\x7b\x7d", parsed := .ok (.obj []) }

/-- C4: the claim that the primary-document and readme locators require a
REGULAR FILE is false on the code: both use `Path.exists()`, which also holds
for a directory.  Here a directory named `AGENTS.md` (not a regular file) is
reported as found. -/
theorem c4_counterexample :
    find_agents_md ⟨some (.dir 0 []), none, none, "/r"⟩ = some "/r/AGENTS.md" ∧
    FSEntry.isFile (.dir 0 []) = false := by
  exact ⟨by decide, rfl⟩

/-- C4 (amended): `find_agents_md` (and likewise `find_readme`) returns the
fixed-name path exactly when ANY filesystem entry — regular file or directory —
exists at that name directly under the root, and returns nothing otherwise
without raising an error. -/
theorem c4_locators_use_existence (fs : FS) :
    find_agents_md fs =
      (if fs.agents.isSome then some (childPath fs.root "AGENTS.md") else none) ∧
    find_readme fs =
      (if fs.readme.isSome then some (childPath fs.root "README.md") else none) := by
  constructor
  · cases h : fs.agents <;> simp [find_agents_md, h]
  · cases h : fs.readme <;> simp [find_readme, h]

/-- C6: contract of `load_metadata` — absence of `metadata.json` returns
nothing silently; a successful parse returns the parsed value with no warning;
a parse failure or an I/O failure (opening a directory) is caught, prints one
warning carrying the failure detail, and returns nothing. -/
theorem c6_load_metadata_contract :
    (∀ ch : List (String × FSEntry), ch.lookup "metadata.json" = none →
       load_metadata ch = (none, [])) ∧
    (∀ (ch : List (String × FSEntry)) (d : FileData) (v : JValue),
       ch.lookup "metadata.json" = some (.file d) → d.parsed = .ok v →
       load_metadata ch = (some v, [])) ∧
    (∀ (ch : List (String × FSEntry)) (d : FileData) (e : String),
       ch.lookup "metadata.json" = some (.file d) → d.parsed = .error e →
       load_metadata ch = (none, [Line.warnMetadata e])) ∧
    (∀ (ch : List (String × FSEntry)) (sz : Nat) (sub : List (String × FSEntry)),
       ch.lookup "metadata.json" = some (.dir sz sub) →
       load_metadata ch = (none, [Line.warnMetadata "IsADirectoryError"])) := by
  refine ⟨?_, ?_, ?_, ?_⟩ <;> intros <;> simp [load_metadata, *]

/-- C6 witness: the four branches of the contract at concrete directories. -/
theorem c6_load_metadata_contract_witness :
    load_metadata [] = (none, []) ∧
    load_metadata [("metadata.json", .file emptyObjMeta)] = (some (.obj []), []) ∧
    load_metadata [("metadata.json", .file badMeta)] =
      (none, [Line.warnMetadata "Expecting value: line 1 column 1 (char 0)"]) ∧
    load_metadata [("metadata.json", .dir 0 [])] =
      (none, [Line.warnMetadata "IsADirectoryError"]) :=
  ⟨c6_load_metadata_contract.1 [] rfl,
   c6_load_metadata_contract.2.1 _ emptyObjMeta _ rfl rfl,
   c6_load_metadata_contract.2.2.1 _ badMeta _ rfl rfl,
   c6_load_metadata_contract.2.2.2 _ 0 [] rfl⟩

/-- C5: contract of `list_context_files` — membership is exactly the direct
children that are regular files whose name is neither `.gitkeep` nor
`metadata.json`; the result is sorted ascending by name; the result does not
depend on the enumeration order of the directory (names are unique in a
directory); the two reserved names never appear in the returned list (hence in
the reference count) nor among the dumped reference headers. -/
theorem c5_list_context_files_contract :
    (∀ (l : List (String × FSEntry)) (p : String × FSEntry),
       p ∈ list_context_files l ↔
         p ∈ l ∧ p.2.isFile = true ∧ p.1 ≠ ".gitkeep" ∧ p.1 ≠ "metadata.json") ∧
    (∀ l : List (String × FSEntry), List.Sorted entryLE (list_context_files l)) ∧
    (∀ l₁ l₂ : List (String × FSEntry), l₁.Perm l₂ → (l₁.map Prod.fst).Nodup →
       list_context_files l₁ = list_context_files l₂) ∧
    (∀ (l : List (String × FSEntry)) (e : FSEntry),
       (".gitkeep", e) ∉ list_context_files l ∧
       ("metadata.json", e) ∉ list_context_files l) ∧
    (∀ (l : List (String × FSEntry)) (name : String),
       Line.refHdr name ∈ (dumpRefs (list_context_files l)).1 →
       name ≠ ".gitkeep" ∧ name ≠ "metadata.json") := by
  refine ⟨mem_list_context_files, sorted_list_context_files,
    fun _ _ => list_context_files_eq_of_perm, ?_, ?_⟩
  · intro l e
    constructor <;> intro hm <;>
      simpa using ((mem_list_context_files l _).mp hm).2.2
  · intro l name hm
    have hn := refHdr_mem_dumpRefs _ name hm
    obtain ⟨p, hp, rfl⟩ := List.mem_map.mp hn
    have := ((mem_list_context_files l p).mp hp).2.2
    exact this

/-- C5 witness: order-independence and reserved-name exclusion at a concrete
directory listing. -/
theorem c5_list_context_files_contract_witness :
    list_context_files
        [("b.md", .file (plainFile "BBB" 3)), ("a.md", .file (plainFile "AAA" 3))] =
      list_context_files
        [("a.md", .file (plainFile "AAA" 3)), ("b.md", .file (plainFile "BBB" 3))] ∧
    ("a.md" ≠ ".gitkeep" ∧ "a.md" ≠ "metadata.json") :=
  ⟨c5_list_context_files_contract.2.2.1 _ _ (List.Perm.swap _ _ _) (by decide),
   c5_list_context_files_contract.2.2.2.2 [("a.md", .file (plainFile "AAA" 3))]
     "a.md" (by decide)⟩

/-- C1 (amended): when `AGENTS.md` is absent the run prints exactly the search
banner, the not-found error and the two-line remediation hint naming the
companion tool `context_save.py`, and exits with code 1 — in particular no
summary line and no content line is printed; when `AGENTS.md` is present and
readable, no fatal I/O error occurs (the readme, if present, and every listed
reference file are readable), and the metadata file (if present) does not
parse to a truthy non-object JSON value, the program terminates with exit
code 0. -/
theorem c1_exit_codes :
    (∀ (re mem : Option FSEntry) (root : String),
       main { agents := none, readme := re, memories := mem, root := root } =
         ([Line.searching root, Line.errNotFound, Line.hintHeader,
           Line.hintCmd "  python context_save.py"], .exit 1)) ∧
    (∀ (fs : FS) (ag : FSEntry),
       fs.agents = some ag →
       (∃ s, readFile ag = .ok s) →
       (fs.readme = none ∨ ∃ rd s, fs.readme = some rd ∧ readFile rd = .ok s) →
       (contextChildren fs = none ∨ ∃ ch, contextChildren fs = some ch ∧
         ∀ p ∈ list_context_files ch, ∃ s, readFile p.2 = .ok s) →
       metaSafe (loadedMeta fs).1 →
       (main fs).2 = .exit 0) := by
  constructor
  · intro re mem root
    simp [main]
  · intro fs ag hag hagr hre hcd hmeta
    rw [main_good fs ag hag hmeta hre hagr hcd]

/-- C1 witness: the two branches at concrete filesystem states — an empty
root, and a root holding a readable `AGENTS.md`. -/
theorem c1_exit_codes_witness :
    main { agents := none, readme := none, memories := none, root := "/r" } =
      ([Line.searching "/r", Line.errNotFound, Line.hintHeader,
        Line.hintCmd "  python context_save.py"], .exit 1) ∧
    (main ⟨some (.file (plainFile "Hello" 5)), none, none, "/r"⟩).2 = .exit 0 :=
  ⟨c1_exit_codes.1 none none "/r",
   c1_exit_codes.2 ⟨some (.file (plainFile "Hello" 5)), none, none, "/r"⟩
     (.file (plainFile "Hello" 5)) rfl ⟨"Hello", rfl⟩ (Or.inl rfl) (Or.inl rfl)
     trivial⟩

/-- C9: when `metadata.json` parses to the empty JSON object, the run prints
no metadata lines at all — neither the `created_at` line nor the
`project_root` line appears in the output, in any form (the empty dict is
falsy in Python, so `if metadata:` skips the block exactly as when metadata is
absent). -/
theorem c9_empty_object_metadata (fs : FS) (ch : List (String × FSEntry))
    (d : FileData)
    (hch : contextChildren fs = some ch)
    (hl : ch.lookup "metadata.json" = some (.file d))
    (hp : d.parsed = .ok (.obj []))
    (s : String) :
    Line.contextSaved s ∉ (main fs).1 ∧ Line.projectRootLine s ∉ (main fs).1 := by
  have hmd : loadedMeta fs = (some (.obj []), []) := by
    simp [loadedMeta, hch, load_metadata, hl, hp]
  cases hag : fs.agents with
  | none => simp [main, hag]
  | some ag =>
    obtain ⟨h1, h2⟩ := no_meta_display fs.root ag fs.readme (contextChildren fs)
      (loadedMeta fs).1 (Or.inr ⟨.obj [], by rw [hmd], rfl⟩) s
    obtain ⟨h3, h4⟩ := no_meta_dumpPhase fs.readme ag (contextChildren fs) s
    simp only [main, hag]
    rcases hsum : (display_context_summary fs.root ag fs.readme (contextChildren fs)
        (loadedMeta fs).1).2 with _ | m <;>
      rcases hd : (dumpPhase fs.readme ag (contextChildren fs)).2 with _ | m2 <;>
      constructor <;>
      simp_all [hmd]

/-- Fixture: a readable `AGENTS.md` plus a context directory whose
`metadata.json` is the empty JSON object. -/
def fsEmptyObjMeta : FS :=
  ⟨some (.file (plainFile "Hello" 5)), none,
    some (.dir 64 [("metadata.json", .file emptyObjMeta)]), "/r"⟩

/-- C9 witness: a run whose `metadata.json` is `{}` — neither metadata line
occurs (the value `Unknown` is chosen as the probe string). -/
theorem c9_empty_object_metadata_witness :
    Line.contextSaved "Unknown" ∉ (main fsEmptyObjMeta).1 ∧
    Line.projectRootLine "Unknown" ∉ (main fsEmptyObjMeta).1 :=
  c9_empty_object_metadata fsEmptyObjMeta
    [("metadata.json", .file emptyObjMeta)] emptyObjMeta rfl rfl rfl "Unknown"

/-- C10: when `metadata.json` parses to a truthy non-object value (for example
the array `[1]`), the summary renderer raises an uncaught `AttributeError`
from `metadata.get`, the run aborts with that exception, and no file content
is ever dumped. -/
theorem c10_truthy_non_object_aborts (fs : FS) (ag : FSEntry)
    (ch : List (String × FSEntry)) (d : FileData) (v : JValue)
    (hag : fs.agents = some ag)
    (hch : contextChildren fs = some ch)
    (hl : ch.lookup "metadata.json" = some (.file d))
    (hp : d.parsed = .ok v)
    (htr : v.truthy = true)
    (hobj : v.isObj = false) :
    (main fs).2 = .exn (attrErrMsg v) ∧
      ∀ s, Line.contentLine s ∉ (main fs).1 := by
  have hmd : loadedMeta fs = (some v, []) := by
    simp [loadedMeta, hch, load_metadata, hl, hp]
  have hsum : display_context_summary fs.root ag fs.readme (contextChildren fs)
      (some v) = (summaryHead, some (attrErrMsg v)) := by
    rcases v with _ | b | n | str | xs | fields
    · simp [JValue.truthy] at htr
    · simp [display_context_summary, htr]
    · simp [display_context_summary, htr]
    · simp [display_context_summary, htr]
    · simp [display_context_summary, htr]
    · simp [JValue.isObj] at hobj
  simp only [main, hag, hmd, hsum]
  constructor
  · simp
  · intro s
    simp [summaryHead]

/-- Fixture: a readable `AGENTS.md` plus a context directory whose
`metadata.json` is the JSON array `[1]`. -/
def fsArrMeta : FS :=
  ⟨some (.file (plainFile "Hello" 5)), none,
    some (.dir 64 [("metadata.json", .file arrMeta)]), "/r"⟩

/-- C10 witness: metadata `[1]` aborts the run with an `AttributeError` and no
content line is printed (probe content `Hello`). -/
theorem c10_truthy_non_object_aborts_witness :
    (main fsArrMeta).2 = .exn (attrErrMsg (.arr [.num 1])) ∧
    Line.contentLine "Hello" ∉ (main fsArrMeta).1 :=
  ⟨(c10_truthy_non_object_aborts fsArrMeta (.file (plainFile "Hello" 5))
      [("metadata.json", .file arrMeta)] arrMeta (.arr [.num 1])
      rfl rfl rfl rfl rfl rfl).1,
   (c10_truthy_non_object_aborts fsArrMeta (.file (plainFile "Hello" 5))
      [("metadata.json", .file arrMeta)] arrMeta (.arr [.num 1])
      rfl rfl rfl rfl rfl rfl).2 "Hello"⟩

/-- C1: the claim's second half ("AGENTS.md present and no fatal I/O error ⇒
exit code 0") is false as stated — here `AGENTS.md` is present and every file
read succeeds (both `AGENTS.md` and `metadata.json` open and read cleanly, so
no I/O or decode error occurs anywhere), yet the run does not terminate with
exit code 0: the metadata parses to the truthy non-object `[1]` and the
process dies with an uncaught `AttributeError`. -/
theorem c1_counterexample :
    fsArrMeta.agents = some (.file (plainFile "Hello" 5)) ∧
    readFile (.file (plainFile "Hello" 5)) = .ok "Hello" ∧
    readFile (.file arrMeta) = .ok "[1]" ∧
    (main fsArrMeta).2 = .exn (attrErrMsg (.arr [.num 1])) ∧
    (main fsArrMeta).2 ≠ .exit 0 :=
  ⟨rfl, rfl, rfl, by decide, by decide⟩

/-- Fixture: a readable `AGENTS.md` plus a context directory whose
`metadata.json` bytes are not valid JSON. -/
def fsBadMeta : FS :=
  ⟨some (.file (plainFile "Hello" 5)), none,
    some (.dir 64 [("metadata.json", .file badMeta)]), "/r"⟩

/-- C3: the claim is false as stated — with a malformed `metadata.json` the
run does exit 0 and prints the warning, but the summary does NOT render the
metadata fields as `Unknown`: `load_metadata` returns `None`, so
`display_context_summary` skips the metadata block entirely and no
`Context saved`/`Project root` line is printed at all. -/
theorem c3_counterexample :
    (main fsBadMeta).2 = .exit 0 ∧
    Line.warnMetadata "Expecting value: line 1 column 1 (char 0)" ∈ (main fsBadMeta).1 ∧
    Line.contextSaved "Unknown" ∉ (main fsBadMeta).1 ∧
    Line.projectRootLine "Unknown" ∉ (main fsBadMeta).1 := by
  decide

/-- C3 (amended): for every input where the reference directory contains a
metadata file whose contents are not valid JSON (and the rest of the run is
readable), the run still reaches exit code 0 and a warning line carrying the
parse-failure detail is printed, but the summary contains no metadata lines at
all — the `created_at`/`project_root` fields are omitted entirely rather than
rendered as `Unknown`. -/
theorem c3_malformed_metadata (fs : FS) (ag : FSEntry) (ch : List (String × FSEntry))
    (d : FileData) (e : String)
    (hag : fs.agents = some ag)
    (hagr : ∃ s, readFile ag = .ok s)
    (hre : fs.readme = none ∨ ∃ rd s, fs.readme = some rd ∧ readFile rd = .ok s)
    (hch : contextChildren fs = some ch)
    (hrefs : ∀ p ∈ list_context_files ch, ∃ s, readFile p.2 = .ok s)
    (hl : ch.lookup "metadata.json" = some (.file d))
    (hp : d.parsed = .error e) :
    (main fs).2 = .exit 0 ∧
    Line.warnMetadata e ∈ (main fs).1 ∧
    ∀ s, Line.contextSaved s ∉ (main fs).1 ∧ Line.projectRootLine s ∉ (main fs).1 := by
  have hmd : loadedMeta fs = (none, [Line.warnMetadata e]) := by
    simp [loadedMeta, hch, load_metadata, hl, hp]
  have hmeta : metaSafe (loadedMeta fs).1 := by rw [hmd]; trivial
  have hmain := main_good fs ag hag hmeta hre hagr (Or.inr ⟨ch, hch, hrefs⟩)
  refine ⟨by rw [hmain], ?_, ?_⟩
  · rw [hmain]
    simp [hmd]
  · intro s
    obtain ⟨h1, h2⟩ := no_meta_display fs.root ag fs.readme (contextChildren fs)
      (loadedMeta fs).1 (Or.inl (by rw [hmd])) s
    obtain ⟨h3, h4⟩ := no_meta_dumpPhase fs.readme ag (contextChildren fs) s
    rw [hmain]
    simp only [hmd] at h1 h2
    constructor <;> simp [hmd, h1, h2, h3, h4]

/-- C3 witness: the amended statement applied to the concrete bad-metadata
filesystem state. -/
theorem c3_malformed_metadata_witness :
    (main fsBadMeta).2 = .exit 0 ∧
    Line.warnMetadata "Expecting value: line 1 column 1 (char 0)" ∈ (main fsBadMeta).1 ∧
    Line.contextSaved "Unknown" ∉ (main fsBadMeta).1 :=
  ⟨(c3_malformed_metadata fsBadMeta (.file (plainFile "Hello" 5))
      [("metadata.json", .file badMeta)] badMeta _ rfl ⟨"Hello", rfl⟩ (Or.inl rfl)
      rfl (fun p hp => absurd hp (by rw [show list_context_files
        [("metadata.json", FSEntry.file badMeta)] = [] from rfl]; simp))
      rfl rfl).1,
   (c3_malformed_metadata fsBadMeta (.file (plainFile "Hello" 5))
      [("metadata.json", .file badMeta)] badMeta _ rfl ⟨"Hello", rfl⟩ (Or.inl rfl)
      rfl (fun p hp => absurd hp (by rw [show list_context_files
        [("metadata.json", FSEntry.file badMeta)] = [] from rfl]; simp))
      rfl rfl).2.1,
   ((c3_malformed_metadata fsBadMeta (.file (plainFile "Hello" 5))
      [("metadata.json", .file badMeta)] badMeta _ rfl ⟨"Hello", rfl⟩ (Or.inl rfl)
      rfl (fun p hp => absurd hp (by rw [show list_context_files
        [("metadata.json", FSEntry.file badMeta)] = [] from rfl]; simp))
      rfl rfl).2.2 "Unknown").1⟩

theorem dumpSeq_searching (r : String) : dumpSeq [Line.searching r] = [] := rfl

theorem dumpSeq_cons_skip (x : Line) (ls : List Line) (h : dumpEvt x = none) :
    dumpSeq (x :: ls) = dumpSeq ls := by
  simp [dumpSeq, List.filterMap_cons, h]

theorem dumpSeq_cons_keep (x : Line) (ev : DumpEvt) (ls : List Line)
    (h : dumpEvt x = some ev) : dumpSeq (x :: ls) = ev :: dumpSeq ls := by
  simp [dumpSeq, List.filterMap_cons, h]

theorem dumpSeq_completes : dumpSeq [Line.completeA, Line.completeB] = [] := rfl

theorem dumpSeq_readmeDump (x : String) :
    dumpSeq [Line.bannerNL, Line.readmeHdr, Line.bannerTrail,
      Line.contentLine x, Line.bannerNL] = [DumpEvt.hdrR, DumpEvt.body x] := rfl

theorem dumpSeq_agentsDump (x : String) :
    dumpSeq [Line.bannerNL, Line.agentsHdr, Line.bannerTrail,
      Line.contentLine x, Line.bannerNL] = [DumpEvt.hdrA, DumpEvt.body x] := rfl

theorem count_hdrA_refFlat (cf : List (String × FSEntry)) :
    ((cf.flatMap fun p => [DumpEvt.hdrRef p.1, DumpEvt.body (readFileD p.2)]).count
      DumpEvt.hdrA) = 0 := by
  induction cf with
  | nil => rfl
  | cons p rest ih => simp [List.flatMap_cons, List.count_append, List.count_cons, ih]

/-- C2: the claim is false as stated — here the primary document is present
and every file read succeeds (both `AGENTS.md` and `metadata.json` are
readable), yet the primary document's content never appears in the output: the
metadata parses to the truthy non-object `[1]`, so the summary renderer aborts
with an uncaught `AttributeError` before any content is dumped. -/
theorem c2_counterexample :
    readFile (.file (plainFile "Hello" 5)) = .ok "Hello" ∧
    readFile (.file arrMeta) = .ok "[1]" ∧
    dumpSeq (main fsArrMeta).1 = [] ∧
    (main fsArrMeta).2 = .exn (attrErrMsg (.arr [.num 1])) :=
  ⟨rfl, rfl, by decide, by decide⟩

/-- C2 (amended): for every input where the primary document is present and
readable, all dumped file reads succeed, and the metadata (if present) does
not deserialise to a truthy non-object value, the run exits 0 and the
content-dump events are exactly: the readme dump (if a readme is present),
then the primary document's dump carrying its full content verbatim, then one
dump per reference file in the sorted order produced by the reference lister —
in particular the primary document is dumped exactly once. -/
theorem c2_dump_order (fs : FS) (ag : FSEntry) (as : String)
    (hag : fs.agents = some ag)
    (har : readFile ag = .ok as)
    (hre : fs.readme = none ∨ ∃ rd s, fs.readme = some rd ∧ readFile rd = .ok s)
    (hcd : contextChildren fs = none ∨ ∃ ch, contextChildren fs = some ch ∧
      ∀ p ∈ list_context_files ch, ∃ s, readFile p.2 = .ok s)
    (hmeta : metaSafe (loadedMeta fs).1) :
    (main fs).2 = .exit 0 ∧
    dumpSeq (main fs).1 =
      readmeDumpEvts fs.readme ++ [DumpEvt.hdrA, DumpEvt.body as] ++
        refsDumpEvts (contextChildren fs) ∧
    (dumpSeq (main fs).1).count DumpEvt.hdrA = 1 := by
  have hmain := main_good fs ag hag hmeta hre ⟨as, har⟩ hcd
  have hdp := dumpPhase_all_ok fs.readme ag (contextChildren fs) hre ⟨as, har⟩ hcd
  have hreadD : readFileD ag = as := by simp [readFileD, har, Except.toOption]
  have h2 : dumpSeq (main fs).1 =
      readmeDumpEvts fs.readme ++ [DumpEvt.hdrA, DumpEvt.body as] ++
        refsDumpEvts (contextChildren fs) := by
    rw [hmain]
    simp only [hdp]
    rcases hre with hre0 | ⟨rd, rs, hre0, hrs⟩ <;>
      rcases hcd with hcd0 | ⟨ch, hcd0, hch⟩ <;>
      simp only [hre0, hcd0, readmeDumpLines, refsDumpLines, readmeDumpEvts,
        refsDumpEvts] <;>
      simp [dumpSeq_append, dumpSeq_cons_skip, dumpSeq_cons_keep, dumpEvt,
        dumpSeq_loadedMeta, dumpSeq_display, dumpSeq_refFlat, hreadD]
  refine ⟨by rw [hmain], h2, ?_⟩
  rw [h2]
  rcases hre with hre0 | ⟨rd, rs, hre0, hrs⟩ <;>
    rcases hcd with hcd0 | ⟨ch, hcd0, hch⟩ <;>
    simp only [hre0, hcd0, readmeDumpEvts, refsDumpEvts] <;>
    simp [List.count_append, List.count_cons, count_hdrA_refFlat]

/-- Fixture: readme, primary document and two reference files, listed out of
name order, plus a well-formed `metadata.json`. -/
def fsFull : FS :=
  ⟨some (.file (plainFile "AGENT TEXT" 10)),
   some (.file (plainFile "README TEXT" 11)),
   some (.dir 64
     [("b.md", .file (plainFile "BBB" 3)),
      (".gitkeep", .file (plainFile "" 0)),
      ("metadata.json", .file
        { size := 9, content := .ok "\x7bjson\x7d",
          parsed := .ok (.obj [("created_at", .str "2024-01-01"),
                               ("project_root", .str "/tmp/x")]) }),
      ("a.md", .file (plainFile "AAA" 3))]),
   "/r"⟩

/-- C2 witness: the amended statement at a full concrete project — dump order
is readme, `AGENTS.md`, `a.md`, `b.md`, with the primary content `AGENT TEXT`
dumped exactly once. -/
theorem c2_dump_order_witness :
    (main fsFull).2 = .exit 0 ∧
    (dumpSeq (main fsFull).1).count DumpEvt.hdrA = 1 := by
  have h := c2_dump_order fsFull (.file (plainFile "AGENT TEXT" 10)) "AGENT TEXT"
    rfl rfl
    (Or.inr ⟨.file (plainFile "README TEXT" 11), "README TEXT", rfl, rfl⟩)
    (Or.inr ⟨[("b.md", .file (plainFile "BBB" 3)),
      (".gitkeep", .file (plainFile "" 0)),
      ("metadata.json", .file
        { size := 9, content := .ok "\x7bjson\x7d",
          parsed := .ok (.obj [("created_at", .str "2024-01-01"),
                               ("project_root", .str "/tmp/x")]) }),
      ("a.md", .file (plainFile "AAA" 3))], rfl,
      by
        intro p hp
        obtain ⟨hmem, _, _, _⟩ := (mem_list_context_files _ p).mp hp
        simp only [List.mem_cons, List.not_mem_nil, or_false] at hmem
        rcases hmem with rfl | rfl | rfl | rfl
        · exact ⟨"BBB", rfl⟩
        · exact ⟨"", rfl⟩
        · exact ⟨"\x7bjson\x7d", rfl⟩
        · exact ⟨"AAA", rfl⟩⟩)
    (by rw [show (loadedMeta fsFull).1 =
          some (.obj [("created_at", .str "2024-01-01"),
                      ("project_root", .str "/tmp/x")]) from rfl]
        exact Or.inr ⟨_, rfl⟩)
  exact ⟨h.1, h.2.2⟩

/-- C7: read or decode failures while dumping content are not caught — the
run's outcome is the uncaught exception carrying the failure detail, and the
remaining pipeline is aborted.  Three scenarios: (1) the readme read fails —
the `AGENTS.md` dump header, any content line and the completion message never
appear; (2) the `AGENTS.md` read fails — no reference header and no completion
message appears; (3) a reference-file read fails after earlier reads
succeeded — the completion message never appears. -/
theorem c7_read_failures_propagate :
    (∀ (fs : FS) (ag rd : FSEntry) (e : String),
       fs.agents = some ag → metaSafe (loadedMeta fs).1 →
       fs.readme = some rd → readFile rd = .error e →
       (main fs).2 = .exn e ∧ Line.agentsHdr ∉ (main fs).1 ∧
         (∀ s, Line.contentLine s ∉ (main fs).1) ∧
         Line.completeA ∉ (main fs).1) ∧
    (∀ (fs : FS) (ag : FSEntry) (e : String),
       fs.agents = some ag → metaSafe (loadedMeta fs).1 →
       (fs.readme = none ∨ ∃ rd s, fs.readme = some rd ∧ readFile rd = .ok s) →
       readFile ag = .error e →
       (main fs).2 = .exn e ∧ (∀ n, Line.refHdr n ∉ (main fs).1) ∧
         Line.completeA ∉ (main fs).1) ∧
    (∀ (fs : FS) (ag : FSEntry) (e : String) (ch cf₁ cf₂ : List (String × FSEntry))
       (p : String × FSEntry),
       fs.agents = some ag → metaSafe (loadedMeta fs).1 →
       (fs.readme = none ∨ ∃ rd s, fs.readme = some rd ∧ readFile rd = .ok s) →
       (∃ s, readFile ag = .ok s) →
       contextChildren fs = some ch →
       list_context_files ch = cf₁ ++ p :: cf₂ →
       (∀ q ∈ cf₁, ∃ s, readFile q.2 = .ok s) →
       readFile p.2 = .error e →
       (main fs).2 = .exn e ∧ Line.completeA ∉ (main fs).1) := by
  refine ⟨?_, ?_, ?_⟩
  · intro fs ag rd e hag hmeta hre hrd
    have hsum2 := display_no_abort fs.root ag fs.readme (contextChildren fs)
      (loadedMeta fs).1 hmeta
    have hd : dumpPhase fs.readme ag (contextChildren fs) =
        ([Line.bannerNL, Line.readmeHdr, Line.bannerTrail], some e) := by
      simp [dumpPhase, hre, hrd]
    have hdd := dumpSeq_display fs.root ag fs.readme (contextChildren fs)
      (loadedMeta fs).1
    have hAg : Line.agentsHdr ∉ (display_context_summary fs.root ag fs.readme
        (contextChildren fs) (loadedMeta fs).1).1 :=
      not_mem_of_dumpSeq_nil Line.agentsHdr DumpEvt.hdrA rfl _ hdd
    have hCl : ∀ s, Line.contentLine s ∉ (display_context_summary fs.root ag
        fs.readme (contextChildren fs) (loadedMeta fs).1).1 :=
      fun s => not_mem_of_dumpSeq_nil (Line.contentLine s) (DumpEvt.body s) rfl _ hdd
    have hCa := completeA_not_display fs.root ag fs.readme (contextChildren fs)
      (loadedMeta fs).1
    simp only [main, hag, hsum2, hd]
    refine ⟨by simp, ?_, ?_, ?_⟩
    · rcases loadedMeta_warns fs with hw | ⟨we, hw⟩ <;> simp [hw, hAg]
    · intro s
      rcases loadedMeta_warns fs with hw | ⟨we, hw⟩ <;> simp [hw, hCl s]
    · rcases loadedMeta_warns fs with hw | ⟨we, hw⟩ <;> simp [hw, hCa]
  · intro fs ag e hag hmeta hre he
    have hsum2 := display_no_abort fs.root ag fs.readme (contextChildren fs)
      (loadedMeta fs).1 hmeta
    have hdd := dumpSeq_display fs.root ag fs.readme (contextChildren fs)
      (loadedMeta fs).1
    have hRf : ∀ n, Line.refHdr n ∉ (display_context_summary fs.root ag fs.readme
        (contextChildren fs) (loadedMeta fs).1).1 :=
      fun n => not_mem_of_dumpSeq_nil (Line.refHdr n) (DumpEvt.hdrRef n) rfl _ hdd
    have hCa := completeA_not_display fs.root ag fs.readme (contextChildren fs)
      (loadedMeta fs).1
    rcases hre with hre0 | ⟨rd, rs, hre0, hrs⟩
    · have hd : dumpPhase fs.readme ag (contextChildren fs) =
          ([Line.bannerNL, Line.agentsHdr, Line.bannerTrail], some e) := by
        simp [dumpPhase, hre0, read_agents_md, he]
      simp only [main, hag, hsum2, hd]
      refine ⟨by simp, ?_, ?_⟩
      · intro n
        rcases loadedMeta_warns fs with hw | ⟨we, hw⟩ <;> simp [hw, hRf n]
      · rcases loadedMeta_warns fs with hw | ⟨we, hw⟩ <;> simp [hw, hCa]
    · have hd : dumpPhase fs.readme ag (contextChildren fs) =
          ([Line.bannerNL, Line.readmeHdr, Line.bannerTrail, Line.contentLine rs,
            Line.bannerNL] ++ [Line.bannerNL, Line.agentsHdr, Line.bannerTrail],
           some e) := by
        simp [dumpPhase, hre0, hrs, read_agents_md, he]
      simp only [main, hag, hsum2, hd]
      refine ⟨by simp, ?_, ?_⟩
      · intro n
        rcases loadedMeta_warns fs with hw | ⟨we, hw⟩ <;> simp [hw, hRf n]
      · rcases loadedMeta_warns fs with hw | ⟨we, hw⟩ <;> simp [hw, hCa]
  · intro fs ag e ch cf₁ cf₂ p hag hmeta hre hagr hch hlcf hcf₁ hp
    obtain ⟨as, has⟩ := hagr
    have hsum2 := display_no_abort fs.root ag fs.readme (contextChildren fs)
      (loadedMeta fs).1 hmeta
    have hCa := completeA_not_display fs.root ag fs.readme (contextChildren fs)
      (loadedMeta fs).1
    have hdr := dumpRefs_fail cf₁ cf₂ p hcf₁ e hp
    have hflat : Line.completeA ∉ cf₁.flatMap (fun q =>
        [Line.bannerNL, Line.refHdr q.1, Line.bannerTrail,
         Line.contentLine (readFileD q.2), Line.bannerNL]) := by
      simp [List.mem_flatMap]
    rcases hre with hre0 | ⟨rd, rs, hre0, hrs⟩
    · have hd : dumpPhase fs.readme ag (contextChildren fs) =
          ([Line.bannerNL, Line.agentsHdr, Line.bannerTrail,
            Line.contentLine as, Line.bannerNL] ++
           (cf₁.flatMap (fun q =>
              [Line.bannerNL, Line.refHdr q.1, Line.bannerTrail,
               Line.contentLine (readFileD q.2), Line.bannerNL]) ++
            [Line.bannerNL, Line.refHdr p.1, Line.bannerTrail]), some e) := by
        simp [dumpPhase, hre0, read_agents_md, has, hch, hlcf, hdr]
      simp only [main, hag, hsum2, hd]
      refine ⟨by simp, ?_⟩
      rcases loadedMeta_warns fs with hw | ⟨we, hw⟩ <;> simp [hw, hCa, hflat]
    · have hd : dumpPhase fs.readme ag (contextChildren fs) =
          ([Line.bannerNL, Line.readmeHdr, Line.bannerTrail, Line.contentLine rs,
            Line.bannerNL] ++
           [Line.bannerNL, Line.agentsHdr, Line.bannerTrail,
            Line.contentLine as, Line.bannerNL] ++
           (cf₁.flatMap (fun q =>
              [Line.bannerNL, Line.refHdr q.1, Line.bannerTrail,
               Line.contentLine (readFileD q.2), Line.bannerNL]) ++
            [Line.bannerNL, Line.refHdr p.1, Line.bannerTrail]), some e) := by
        simp [dumpPhase, hre0, hrs, read_agents_md, has, hch, hlcf, hdr]
      simp only [main, hag, hsum2, hd]
      refine ⟨by simp, ?_⟩
      rcases loadedMeta_warns fs with hw | ⟨we, hw⟩ <;> simp [hw, hCa, hflat]

/-- A file whose open/read raises with the given detail. -/
def unreadableFile (e : String) (n : Nat) : FileData :=
  { size := n, content := .error e, parsed := .error "unused" }

/-- Fixture: readable `AGENTS.md`, unreadable `README.md`. -/
def fsBadReadme : FS :=
  ⟨some (.file (plainFile "Hello" 5)),
   some (.file (unreadableFile "bad decode" 4)), none, "/r"⟩

/-- Fixture: unreadable `AGENTS.md`. -/
def fsBadAgents : FS :=
  ⟨some (.file (unreadableFile "agents unreadable" 5)), none, none, "/r"⟩

/-- Fixture: readable `AGENTS.md`, one unreadable reference file. -/
def fsBadRef : FS :=
  ⟨some (.file (plainFile "Hello" 5)), none,
   some (.dir 64 [("z.md", .file (unreadableFile "ref unreadable" 2))]), "/r"⟩

/-- C7 witness: the three failure scenarios at concrete filesystem states. -/
theorem c7_read_failures_propagate_witness :
    ((main fsBadReadme).2 = .exn "bad decode" ∧
      Line.agentsHdr ∉ (main fsBadReadme).1) ∧
    ((main fsBadAgents).2 = .exn "agents unreadable" ∧
      Line.completeA ∉ (main fsBadAgents).1) ∧
    ((main fsBadRef).2 = .exn "ref unreadable" ∧
      Line.completeA ∉ (main fsBadRef).1) := by
  have h1 := c7_read_failures_propagate.1 fsBadReadme
    (.file (plainFile "Hello" 5)) (.file (unreadableFile "bad decode" 4))
    "bad decode" rfl trivial rfl rfl
  have h2 := c7_read_failures_propagate.2.1 fsBadAgents
    (.file (unreadableFile "agents unreadable" 5)) "agents unreadable"
    rfl trivial (Or.inl rfl) rfl
  have h3 := c7_read_failures_propagate.2.2 fsBadRef
    (.file (plainFile "Hello" 5)) "ref unreadable"
    [("z.md", .file (unreadableFile "ref unreadable" 2))] []
    [] ("z.md", .file (unreadableFile "ref unreadable" 2))
    rfl trivial (Or.inl rfl) ⟨"Hello", rfl⟩ rfl rfl
    (fun q hq => absurd hq (List.not_mem_nil q)) rfl
  exact ⟨⟨h1.1, h1.2.1⟩, ⟨h2.1, h2.2.2⟩, ⟨h3.1, h3.2⟩⟩

/-- C8: the program is deterministic — its output is a function of the
filesystem contents alone.  In particular the one genuine source of run-to-run
variation, the enumeration order that `iterdir` yields for the context
directory, does not affect the output: two states whose context-directory
listings are permutations of each other (directory entry names are unique)
produce identical line sequences and outcomes. -/
theorem c8_deterministic_output (ag re : Option FSEntry) (root : String)
    (sz : Nat) (l₁ l₂ : List (String × FSEntry))
    (hp : l₁.Perm l₂) (hn : (l₁.map Prod.fst).Nodup) :
    main ⟨ag, re, some (.dir sz l₁), root⟩ =
      main ⟨ag, re, some (.dir sz l₂), root⟩ := by
  have hlm : load_metadata l₁ = load_metadata l₂ := load_metadata_eq_of_perm hp hn
  have hlcf : list_context_files l₁ = list_context_files l₂ :=
    list_context_files_eq_of_perm hp hn
  rcases ag with _ | ag
  · simp [main]
  · have hd : ∀ md, display_context_summary root ag re (some l₁) md =
        display_context_summary root ag re (some l₂) md := by
      intro md
      simp only [display_context_summary, summaryCdirPart]
      rw [hlcf]
    have hdp : dumpPhase re ag (some l₁) = dumpPhase re ag (some l₂) := by
      simp only [dumpPhase]
      rw [hlcf]
    simp only [main, loadedMeta, contextChildren, hlm, hd, hdp]

/-- C8 witness: two enumeration orders of the same two-file context directory
give byte-identical output. -/
theorem c8_deterministic_output_witness :
    main ⟨some (.file (plainFile "Hello" 5)), none,
      some (.dir 64 [("y.md", .file (plainFile "YYY" 3)),
                     ("x.md", .file (plainFile "XXX" 3))]), "/r"⟩ =
    main ⟨some (.file (plainFile "Hello" 5)), none,
      some (.dir 64 [("x.md", .file (plainFile "XXX" 3)),
                     ("y.md", .file (plainFile "YYY" 3))]), "/r"⟩ :=
  c8_deterministic_output (some (.file (plainFile "Hello" 5))) none "/r" 64
    [("y.md", .file (plainFile "YYY" 3)), ("x.md", .file (plainFile "XXX" 3))]
    [("x.md", .file (plainFile "XXX" 3)), ("y.md", .file (plainFile "YYY" 3))]
    (List.Perm.swap _ _ _) (by decide)

end ContextRestore
